import Mathlib

/-!
Verification of the Emilia Print Mirror engine against its specification.

The repository holds two copies of the mirror engine: `PrinterMirrorCore`
in `mirror_service.py` and `MirrorWorker` in `mirror_app.py`.  Both are
embedded below, each in its own namespace (`MirrorService`, `MirrorApp`),
as pure functions over an explicit environment model:

* the printer-queue API (`EnumJobs`, `OpenPrinter`, `StartDocPrinter`,
  `StartPagePrinter`, `WritePrinter`, `EndPagePrinter`, `EndDocPrinter`,
  `ClosePrinter`) is modelled by per-call success flags plus the data it
  would return, and every attempted call is recorded in a trace;
* the spool directory is a listing of files with name, stat data and
  byte content, indexed per retry attempt so the directory may change
  between attempts;
* Python `set` values are modelled as duplicate-free `List Nat` values
  whose operations (`add`, intersection, difference) are written out
  executably; statements about them are phrased via membership;
* Python string operations used by the code (`startswith`, `upper`,
  `endswith`, f-string formatting with `:05d`) are modelled by
  executable character-list functions;
* `self.running` is only flipped by a concurrent `stop()` request; a
  run is therefore modelled as a number of complete poll ticks, and the
  in-cycle `if not self.running: break` checks, which see a constant
  flag during an uninterrupted cycle, collapse to straight-line code.
-/

/-- One queue entry as the engine keeps it: `{"document": ..., "status": ...}`. -/
structure JobInfo where
  document : String
  status : Nat
deriving DecidableEq, Repr, Inhabited

/-- One record returned by `win32print.EnumJobs`: the fields the engine reads. -/
structure RawJob where
  jobId : Nat
  pDocument : String
  status : Nat
deriving DecidableEq, Repr

/-- One file of the spool directory: its name, whether `getmtime`/`getsize`
succeed, the stat results, whether opening and reading it succeeds, and the
bytes a successful read returns. -/
structure SpoolFile where
  name : String
  statOk : Bool
  size : Nat
  mtime : Nat
  readOk : Bool
  data : List Nat
deriving DecidableEq, Repr

/-- The spool directory as one attempt sees it: the listing, and whether
`os.listdir` succeeds (`listOk = false` models the scan raising). -/
structure SpoolFS where
  files : List SpoolFile
  listOk : Bool
deriving DecidableEq, Repr

/-- Success flags and returned data for one destination-submission attempt
through the `win32print` API. -/
structure W32Env where
  openOk : Bool
  startDocOk : Bool
  newJobId : Nat
  startPageOk : Bool
  writeOk : Bool
  endPageOk : Bool
  endDocOk : Bool
  closeOk : Bool
deriving DecidableEq, Repr

/-- Environment of one `_copy_job` call: the spool directory as seen by each
read attempt, and the destination-queue API outcomes. -/
structure CopyEnv where
  fs : Nat → SpoolFS
  w32 : W32Env

/-- A call into the printer API, as recorded in a submission trace. -/
inductive PrintCall where
  | openPrinter (printer : String)
  | startDoc (docName : String) (dataType : String)
  | startPage
  | write (data : List Nat)
  | endPage
  | endDoc
  | closePrinter
deriving DecidableEq, Repr

/-- Environment of one poll tick: per printer, the `EnumJobs` outcome
(`none` models the enumeration raising) and, per job id, the environment a
copy of that job would run in. -/
structure Env where
  enum : String → Option (List RawJob)
  copyEnv : String → Nat → CopyEnv

/-- Environment of a whole run: whether the startup `os.listdir` of the spool
directory succeeds, the seeding enumeration, and the environment of each tick. -/
structure RunEnv where
  spoolOk : Bool
  seedEnum : String → Option (List RawJob)
  tick : Nat → Env

/-- Model of Python `str.startswith`. -/
def strStartsWith (s pre : String) : Bool :=
  pre.toList.isPrefixOf s.toList

/-- Model of Python `str.upper` on one character (the spool file names the
code inspects are ASCII). -/
def upChar (c : Char) : Char :=
  if c.isLower then Char.ofNat (c.toNat - 32) else c

/-- Model of Python `str.upper`. -/
def strToUpper (s : String) : String :=
  String.mk (s.toList.map upChar)

/-- Model of Python `str.endswith`. -/
def strEndsWith (s suf : String) : Bool :=
  suf.toList.isSuffixOf s.toList

/-- Model of the f-string format `{n:05d}`: decimal digits, zero-padded to
width five. -/
def pad5 (n : Nat) : String :=
  let s := toString n
  String.mk (List.replicate (5 - s.length) '0') ++ s

/-- Python `set.add` on the list model of a set. -/
def setAdd (s : List Nat) (j : Nat) : List Nat :=
  if j ∈ s then s else s ++ [j]

/-- Python set intersection (`&`) on the list model of a set. -/
def setInter (a b : List Nat) : List Nat :=
  a.filter fun x => decide (x ∈ b)

/-- Python set difference (`-`) on the list model of a set. -/
def setDiff (a b : List Nat) : List Nat :=
  a.filter fun x => decide (x ∉ b)

/-- Insert into an ascending list, keeping order. -/
def insertSorted (j : Nat) : List Nat → List Nat
  | [] => [j]
  | a :: rest => if j ≤ a then j :: a :: rest else a :: insertSorted j rest

/-- Model of Python `sorted` on a list of job ids. -/
def sortNat : List Nat → List Nat
  | [] => []
  | a :: rest => insertSorted a (sortNat rest)

/-- Model of Python dict insertion `d[k] = v`: overwrite in place or append. -/
def dictInsert : List (Nat × JobInfo) → Nat → JobInfo → List (Nat × JobInfo)
  | [], k, v => [(k, v)]
  | (k', v') :: rest, k, v =>
    if k' = k then (k, v) :: rest else (k', v') :: dictInsert rest k v

/-- The dict built from an `EnumJobs` result, with the fields the loops in
`_get_current_jobs` extract (`JobId`, `pDocument`, `Status`). -/
def buildJobs (l : List RawJob) : List (Nat × JobInfo) :=
  l.foldl (fun d r => dictInsert d r.jobId ⟨r.pDocument, r.status⟩) []

/-- `set(current_jobs.keys())` of a job dict. -/
def keysOf (jobs : List (Nat × JobInfo)) : List Nat :=
  jobs.map Prod.fst

/-- Result of one `_read_spool_data` call: the returned bytes, the total
time slept (ms), and the number of locate attempts made. -/
structure ReadResult where
  data : Option (List Nat)
  timeMs : Nat
  attempts : Nat
deriving DecidableEq, Repr

/-- Shared shape of one `_copy_job`'s submission trace for comparing the
two engines: the returned flag and the API calls performed. -/
inductive EventCore where
  | skipTagged (printer : String) (jobId : Nat)
  | copy (printer : String) (jobId : Nat) (ok : Bool) (calls : List PrintCall)
deriving DecidableEq, Repr

namespace MirrorService

/-- `PrinterMirrorCore._find_spool_file`: try the two deterministic
patterns, then fall back to the most recently modified nonempty `.SPL`
file; any raised error yields `None`. -/
def find_spool_file (fs : SpoolFS) (jobId : Nat) : Option SpoolFile :=
  let patterns := ["FP" ++ pad5 jobId ++ ".SPL", pad5 jobId ++ ".SPL"]
  match patterns.findSome? (fun pat => fs.files.find? (fun f => f.name == pat)) with
  | some f => some f
  | none =>
    if fs.listOk then
      let spl := fs.files.filter fun f =>
        strEndsWith (strToUpper f.name) ".SPL" && f.statOk && decide (0 < f.size)
      match mtimeSortDesc spl with
      | f :: _ => some f
      | [] => none
    else none
where
  /-- Stable insertion, newest modification time first, matching
  `sort(key=mtime, reverse=True)` on a stable sort. -/
  insertByMtime (f : SpoolFile) : List SpoolFile → List SpoolFile
    | [] => [f]
    | g :: rest =>
      if g.mtime ≤ f.mtime then f :: g :: rest else g :: insertByMtime f rest
  /-- Stable descending sort by modification time. -/
  mtimeSortDesc : List SpoolFile → List SpoolFile
    | [] => []
    | f :: rest => insertByMtime f (mtimeSortDesc rest)

/-- The attempt loop of `_read_spool_data` over the remaining attempt
indices: on each attempt locate the file; if found, sleep 300 ms and read
it; return on a nonempty read; otherwise sleep 500 ms unless this was the
last attempt. -/
def read_spool_go (fs : Nat → SpoolFS) (jobId : Nat) (retries : Nat) :
    List Nat → ReadResult
  | [] => ⟨none, 0, 0⟩
  | attempt :: rest =>
    match find_spool_file (fs attempt) jobId with
    | some f =>
      if f.readOk && !f.data.isEmpty then ⟨some f.data, 300, 1⟩
      else
        let backoff := if attempt < retries - 1 then 500 else 0
        let r := read_spool_go fs jobId retries rest
        ⟨r.data, 300 + backoff + r.timeMs, r.attempts + 1⟩
    | none =>
      let backoff := if attempt < retries - 1 then 500 else 0
      let r := read_spool_go fs jobId retries rest
      ⟨r.data, backoff + r.timeMs, r.attempts + 1⟩

/-- `PrinterMirrorCore._read_spool_data`, with its retry/sleep accounting. -/
def read_spool_full (fs : Nat → SpoolFS) (jobId : Nat) (retries : Nat) : ReadResult :=
  read_spool_go fs jobId retries (List.range retries)

/-- The bytes `_read_spool_data` returns (its Python return value). -/
def read_spool_data (fs : Nat → SpoolFS) (jobId : Nat) (retries : Nat) : Option (List Nat) :=
  (read_spool_full fs jobId retries).data

/-- Result of `PrinterMirrorCore._copy_job`: the returned flag, the trace
of attempted printer-API calls, and the log lines emitted. -/
structure CopyResult where
  ok : Bool
  calls : List PrintCall
  logs : List String
deriving DecidableEq, Repr

/-- Log line for the generic `except` branch of `_copy_job`. -/
def errLog (jobId : Nat) : String :=
  "Error copying job " ++ toString jobId

/-- `PrinterMirrorCore._copy_job`: read the spool bytes (5 retries), open
the destination, start a raw document named with the mirror tag, write the
payload inside a page, and close everything; `EndDocPrinter` runs in a
`finally` once the document started, `ClosePrinter` in a `finally` once the
handle opened. -/
def copy_job (ce : CopyEnv) (dest source : String) (jobId : Nat) (document : String) :
    CopyResult :=
  match read_spool_data ce.fs jobId 5 with
  | none => ⟨false, [], ["Could not read job " ++ toString jobId]⟩
  | some data =>
    let w := ce.w32
    if !w.openOk then
      ⟨false, [.openPrinter dest], [errLog jobId]⟩
    else
      let docName := "[MIRROR:" ++ source ++ "] " ++ document
      if !w.startDocOk then
        ⟨false, [.openPrinter dest, .startDoc docName "RAW", .closePrinter],
          [errLog jobId]⟩
      else
        let innerCalls : List PrintCall :=
          if !w.startPageOk then [.startPage]
          else if !w.writeOk then [.startPage, .write data]
          else [.startPage, .write data, .endPage]
        let innerOk := w.startPageOk && w.writeOk && w.endPageOk
        let calls := [PrintCall.openPrinter dest, .startDoc docName "RAW"] ++
          innerCalls ++ [.endDoc]
        if innerOk && w.endDocOk then
          let okLog := "OK: [" ++ source ++ "] Job " ++ toString jobId ++ " -> " ++
            dest ++ " (new: " ++ toString w.newJobId ++ ", " ++
            toString data.length ++ " bytes)"
          if w.closeOk then ⟨true, calls ++ [.closePrinter], [okLog]⟩
          else ⟨false, calls ++ [.closePrinter], [okLog, errLog jobId]⟩
        else ⟨false, calls ++ [.closePrinter], [errLog jobId]⟩

/-- `PrinterMirrorCore._get_current_jobs`: build the job dict from the
enumeration; any raised error is swallowed and yields the empty dict. -/
def get_current_jobs (enumRes : Option (List RawJob)) : List (Nat × JobInfo) :=
  match enumRes with
  | none => []
  | some l => buildJobs l

/-- One observable step of a poll cycle: a job skipped for carrying the
mirror tag, or a `_copy_job` invocation with its result. -/
inductive Event where
  | skipTagged (printer : String) (jobId : Nat)
  | copy (printer : String) (jobId : Nat) (result : CopyResult)
deriving DecidableEq, Repr

/-- Loop state of `run_once` while iterating the new jobs of one printer. -/
structure StepAcc where
  tracker : List Nat
  copied : Nat
  events : List Event
  logs : List String

/-- The body of `for job_id in sorted(new_job_ids)` in
`PrinterMirrorCore.run_once`. -/
def jobStep (ce : Nat → CopyEnv) (dest printer : String)
    (current : List (Nat × JobInfo)) (acc : StepAcc) (j : Nat) : StepAcc :=
  let info := (List.lookup j current).getD default
  if strStartsWith info.document "[MIRROR" then
    { acc with
      tracker := setAdd acc.tracker j,
      events := acc.events ++ [Event.skipTagged printer j] }
  else
    let res := copy_job (ce j) dest printer j info.document
    { tracker := setAdd acc.tracker j,
      copied := acc.copied + (if res.ok then 1 else 0),
      events := acc.events ++ [Event.copy printer j res],
      logs := acc.logs ++
        ["New job: [" ++ printer ++ "] [" ++ toString j ++ "] " ++ info.document] ++
        res.logs }

/-- One printer's share of `PrinterMirrorCore.run_once`: snapshot the
queue, diff against the tracker, process the new ids in ascending order,
then intersect the tracker with the current ids. -/
def processPrinter (enumRes : Option (List RawJob)) (ce : Nat → CopyEnv)
    (dest printer : String) (tr : List Nat) : StepAcc :=
  let current := get_current_jobs enumRes
  let currentIds := keysOf current
  let newIds := sortNat (setDiff currentIds tr)
  let acc := newIds.foldl (jobStep ce dest printer current) ⟨tr, 0, [], []⟩
  { acc with tracker := setInter acc.tracker currentIds }

/-- Result of one full poll cycle over all source printers. -/
structure CycleResult where
  trackers : String → List Nat
  copied : Nat
  events : List Event
  logs : List String

/-- The `for printer in self.source_printers` loop of `run_once`. -/
def cycleGo (env : Env) (dest : String) : List String → CycleResult → CycleResult
  | [], acc => acc
  | p :: rest, acc =>
    let st := processPrinter (env.enum p) (env.copyEnv p) dest p (acc.trackers p)
    cycleGo env dest rest
      { trackers := Function.update acc.trackers p st.tracker,
        copied := acc.copied + st.copied,
        events := acc.events ++ st.events,
        logs := acc.logs ++ st.logs }

/-- `PrinterMirrorCore.run_once`.  With `running = false` every loop entry
breaks immediately and the state is untouched. -/
def run_once (env : Env) (printers : List String) (dest : String)
    (running : Bool) (trackers : String → List Nat) : CycleResult :=
  if running then cycleGo env dest printers ⟨trackers, 0, [], []⟩
  else ⟨trackers, 0, [], []⟩

/-- Exit path of `PrinterMirrorCore.run`: the early return after the spool
directory check fails (the spec's `ERROR` state), or the normal exit after
the stop request (the spec's `STOPPED` state). -/
inductive RunOutcome where
  | error
  | stopped
deriving DecidableEq, Repr

/-- Observable outcome of one `PrinterMirrorCore.run` invocation. -/
structure RunResult where
  outcome : RunOutcome
  logs : List String
  seedEnumPrinters : List String
  events : List Event
  trackers : String → List Nat
  copied : Nat

/-- The seeding loop of `run`: overwrite each printer's tracker with the
ids currently on its queue (the constructor initialised every tracker to
the empty set). -/
def seedTrackers (seedEnum : String → Option (List RawJob))
    (printers : List String) : String → List Nat :=
  printers.foldl
    (fun tr p => Function.update tr p (keysOf (get_current_jobs (seedEnum p))))
    (fun _ => [])

/-- Tracker state after seeding and `n` complete poll ticks of `run`. -/
def trackersAfter (renv : RunEnv) (printers : List String) (dest : String) :
    Nat → (String → List Nat)
  | 0 => seedTrackers renv.seedEnum printers
  | n + 1 =>
    (run_once (renv.tick n) printers dest true
      (trackersAfter renv printers dest n)).trackers

/-- The `run_once` invocation of tick `n` inside `run`'s main loop. -/
def tickResult (renv : RunEnv) (printers : List String) (dest : String)
    (n : Nat) : CycleResult :=
  run_once (renv.tick n) printers dest true (trackersAfter renv printers dest n)

/-- `PrinterMirrorCore.run`, executing `nTicks` complete poll cycles before
the concurrent stop request is observed.  Failing the spool-directory check
logs the fatal line and returns before any queue is enumerated. -/
def run (renv : RunEnv) (printers : List String) (dest : String)
    (nTicks : Nat) : RunResult :=
  let startLog := "Mirror started: [" ++ String.intercalate ", " printers ++
    "] -> " ++ dest
  if !renv.spoolOk then
    { outcome := .error,
      logs := [startLog,
        "ERROR: No access to spool directory. Run as Administrator/SYSTEM."],
      seedEnumPrinters := [],
      events := [],
      trackers := fun _ => [],
      copied := 0 }
  else
    { outcome := .stopped,
      logs := [startLog] ++
        printers.map (fun p => "[" ++ p ++ "] Ignoring " ++
          toString (get_current_jobs (renv.seedEnum p)).length ++
          " existing job(s)") ++
        ((List.range nTicks).flatMap fun t =>
          (tickResult renv printers dest t).logs) ++
        ["Mirror stopped"],
      seedEnumPrinters := printers,
      events := (List.range nTicks).flatMap fun t =>
        (tickResult renv printers dest t).events,
      trackers := trackersAfter renv printers dest nTicks,
      copied := ((List.range nTicks).map fun t =>
        (tickResult renv printers dest t).copied).sum }

/-- The ids a given tick's enumeration reports for a given printer. -/
def currentIdsAt (renv : RunEnv) (p : String) (t : Nat) : List Nat :=
  keysOf (get_current_jobs ((renv.tick t).enum p))

/-- Number of `_copy_job` invocations recorded for a printer/job pair. -/
def copyCount (evs : List Event) (p : String) (j : Nat) : Nat :=
  evs.countP fun e =>
    match e with
    | .copy p' j' _ => p' == p && j' == j
    | _ => false

/-- Whether a printer-API call is a `StartDocPrinter` call. -/
def isStartDoc : PrintCall → Bool
  | .startDoc _ _ => true
  | _ => false

/-- Number of recorded copy attempts for a printer/job pair that actually
started a document on the destination queue. -/
def submitCount (evs : List Event) (p : String) (j : Nat) : Nat :=
  evs.countP fun e =>
    match e with
    | .copy p' j' r => p' == p && j' == j && r.calls.any isStartDoc
    | _ => false

/-- Projection of an event to the shape shared with the GUI engine. -/
def Event.core : Event → EventCore
  | .skipTagged p j => .skipTagged p j
  | .copy p j r => .copy p j r.ok r.calls

end MirrorService

namespace MirrorApp

/-- `MirrorWorker._find_spool_file`: identical algorithm to the service
copy — deterministic patterns first, then the newest nonempty `.SPL`
file; any raised error yields `None`. -/
def find_spool_file (fs : SpoolFS) (jobId : Nat) : Option SpoolFile :=
  let patterns := ["FP" ++ pad5 jobId ++ ".SPL", pad5 jobId ++ ".SPL"]
  match patterns.findSome? (fun pat => fs.files.find? (fun f => f.name == pat)) with
  | some f => some f
  | none =>
    if fs.listOk then
      let spl := fs.files.filter fun f =>
        strEndsWith (strToUpper f.name) ".SPL" && f.statOk && decide (0 < f.size)
      match mtimeSortDesc spl with
      | f :: _ => some f
      | [] => none
    else none
where
  /-- Stable insertion, newest modification time first. -/
  insertByMtime (f : SpoolFile) : List SpoolFile → List SpoolFile
    | [] => [f]
    | g :: rest =>
      if g.mtime ≤ f.mtime then f :: g :: rest else g :: insertByMtime f rest
  /-- Stable descending sort by modification time. -/
  mtimeSortDesc : List SpoolFile → List SpoolFile
    | [] => []
    | f :: rest => insertByMtime f (mtimeSortDesc rest)

/-- The attempt loop of `MirrorWorker._read_spool_data`. -/
def read_spool_go (fs : Nat → SpoolFS) (jobId : Nat) (retries : Nat) :
    List Nat → ReadResult
  | [] => ⟨none, 0, 0⟩
  | attempt :: rest =>
    match find_spool_file (fs attempt) jobId with
    | some f =>
      if f.readOk && !f.data.isEmpty then ⟨some f.data, 300, 1⟩
      else
        let backoff := if attempt < retries - 1 then 500 else 0
        let r := read_spool_go fs jobId retries rest
        ⟨r.data, 300 + backoff + r.timeMs, r.attempts + 1⟩
    | none =>
      let backoff := if attempt < retries - 1 then 500 else 0
      let r := read_spool_go fs jobId retries rest
      ⟨r.data, backoff + r.timeMs, r.attempts + 1⟩

/-- `MirrorWorker._read_spool_data`, with its retry/sleep accounting. -/
def read_spool_full (fs : Nat → SpoolFS) (jobId : Nat) (retries : Nat) : ReadResult :=
  read_spool_go fs jobId retries (List.range retries)

/-- The bytes `MirrorWorker._read_spool_data` returns. -/
def read_spool_data (fs : Nat → SpoolFS) (jobId : Nat) (retries : Nat) : Option (List Nat) :=
  (read_spool_full fs jobId retries).data

/-- Result of `MirrorWorker._copy_job`: the returned flag, the trace of
attempted printer-API calls, the log lines, and the `job_copied` Qt
signals emitted. -/
structure CopyResult where
  ok : Bool
  calls : List PrintCall
  logs : List String
  emits : List (String × String × Nat)
deriving DecidableEq, Repr

/-- Log line for the generic `except` branch of `MirrorWorker._copy_job`. -/
def errLog (jobId : Nat) : String :=
  "Error copying job " ++ toString jobId

/-- `MirrorWorker._copy_job`: same call protocol as the service copy; the
log wording differs and a `job_copied` signal is emitted on the success
path (before `ClosePrinter` runs). -/
def copy_job (ce : CopyEnv) (dest source : String) (jobId : Nat) (document : String) :
    CopyResult :=
  match read_spool_data ce.fs jobId 5 with
  | none => ⟨false, [], ["Could not read job " ++ toString jobId], []⟩
  | some data =>
    let w := ce.w32
    if !w.openOk then
      ⟨false, [.openPrinter dest], [errLog jobId], []⟩
    else
      let docName := "[MIRROR:" ++ source ++ "] " ++ document
      if !w.startDocOk then
        ⟨false, [.openPrinter dest, .startDoc docName "RAW", .closePrinter],
          [errLog jobId], []⟩
      else
        let innerCalls : List PrintCall :=
          if !w.startPageOk then [.startPage]
          else if !w.writeOk then [.startPage, .write data]
          else [.startPage, .write data, .endPage]
        let innerOk := w.startPageOk && w.writeOk && w.endPageOk
        let calls := [PrintCall.openPrinter dest, .startDoc docName "RAW"] ++
          innerCalls ++ [.endDoc]
        if innerOk && w.endDocOk then
          let okLog := "OK! [" ++ source ++ "] Job " ++ toString jobId ++ " -> " ++
            dest ++ " (ID: " ++ toString w.newJobId ++ ", " ++
            toString data.length ++ " bytes)"
          if w.closeOk then
            ⟨true, calls ++ [.closePrinter], [okLog], [(source, dest, jobId)]⟩
          else
            ⟨false, calls ++ [.closePrinter], [okLog, errLog jobId],
              [(source, dest, jobId)]⟩
        else ⟨false, calls ++ [.closePrinter], [errLog jobId], []⟩

/-- `MirrorWorker._get_current_jobs`: identical to the service copy. -/
def get_current_jobs (enumRes : Option (List RawJob)) : List (Nat × JobInfo) :=
  match enumRes with
  | none => []
  | some l => buildJobs l

/-- One observable step of the worker's poll cycle. -/
inductive Event where
  | skipTagged (printer : String) (jobId : Nat)
  | copy (printer : String) (jobId : Nat) (result : CopyResult)
deriving DecidableEq, Repr

/-- Loop state of the worker's poll cycle over one printer's new jobs
(the worker keeps no copy counter). -/
structure StepAcc where
  tracker : List Nat
  events : List Event
  logs : List String

/-- The body of `for job_id in sorted(new_job_ids)` in `MirrorWorker.run`;
the `_copy_job` return value is discarded. -/
def jobStep (ce : Nat → CopyEnv) (dest printer : String)
    (current : List (Nat × JobInfo)) (acc : StepAcc) (j : Nat) : StepAcc :=
  let info := (List.lookup j current).getD default
  if strStartsWith info.document "[MIRROR" then
    { acc with
      tracker := setAdd acc.tracker j,
      events := acc.events ++ [Event.skipTagged printer j] }
  else
    let res := copy_job (ce j) dest printer j info.document
    { tracker := setAdd acc.tracker j,
      events := acc.events ++ [Event.copy printer j res],
      logs := acc.logs ++
        [">>> [" ++ printer ++ "] New job: [" ++ toString j ++ "] " ++
          info.document] ++
        res.logs }

/-- One printer's share of the worker's poll cycle. -/
def processPrinter (enumRes : Option (List RawJob)) (ce : Nat → CopyEnv)
    (dest printer : String) (tr : List Nat) : StepAcc :=
  let current := get_current_jobs enumRes
  let currentIds := keysOf current
  let newIds := sortNat (setDiff currentIds tr)
  let acc := newIds.foldl (jobStep ce dest printer current) ⟨tr, [], []⟩
  { acc with tracker := setInter acc.tracker currentIds }

/-- Result of one full poll cycle of the worker. -/
structure CycleResult where
  trackers : String → List Nat
  events : List Event
  logs : List String

/-- The `for printer in self.source_printers` loop inside the worker's
`while self.running` loop. -/
def cycleGo (env : Env) (dest : String) : List String → CycleResult → CycleResult
  | [], acc => acc
  | p :: rest, acc =>
    let st := processPrinter (env.enum p) (env.copyEnv p) dest p (acc.trackers p)
    cycleGo env dest rest
      { trackers := Function.update acc.trackers p st.tracker,
        events := acc.events ++ st.events,
        logs := acc.logs ++ st.logs }

/-- One complete iteration of the worker's steady-state loop body. -/
def pollCycle (env : Env) (printers : List String) (dest : String)
    (trackers : String → List Nat) : CycleResult :=
  cycleGo env dest printers ⟨trackers, [], []⟩

/-- The worker's seeding loop, identical to the service's. -/
def seedTrackers (seedEnum : String → Option (List RawJob))
    (printers : List String) : String → List Nat :=
  printers.foldl
    (fun tr p => Function.update tr p (keysOf (get_current_jobs (seedEnum p))))
    (fun _ => [])

/-- Worker tracker state after seeding and `n` complete poll cycles. -/
def trackersAfter (renv : RunEnv) (printers : List String) (dest : String) :
    Nat → (String → List Nat)
  | 0 => seedTrackers renv.seedEnum printers
  | n + 1 =>
    (pollCycle (renv.tick n) printers dest
      (trackersAfter renv printers dest n)).trackers

/-- The poll cycle of tick `n` inside `MirrorWorker.run`. -/
def tickResult (renv : RunEnv) (printers : List String) (dest : String)
    (n : Nat) : CycleResult :=
  pollCycle (renv.tick n) printers dest (trackersAfter renv printers dest n)

/-- Observable outcome of one `MirrorWorker.run` invocation, including the
`status_changed` signals it emitted in order. -/
structure RunResult where
  statuses : List String
  logs : List String
  events : List Event
  trackers : String → List Nat

/-- `MirrorWorker.run`, executing `nTicks` complete poll cycles before the
stop request is observed.  Failing the spool-directory check logs the
fatal line, emits the `error` status and returns before any queue is
enumerated. -/
def run (renv : RunEnv) (printers : List String) (dest : String)
    (nTicks : Nat) : RunResult :=
  let startLog := "Mirror started: [" ++ String.intercalate ", " printers ++
    "] -> " ++ dest
  if !renv.spoolOk then
    { statuses := ["running", "error"],
      logs := [startLog, "ERROR: No access to spool. Run as Administrator."],
      events := [],
      trackers := fun _ => [] }
  else
    { statuses := ["running", "stopped"],
      logs := [startLog] ++
        printers.map (fun p => "[" ++ p ++ "] Ignoring " ++
          toString (get_current_jobs (renv.seedEnum p)).length ++
          " existing job(s)") ++
        ["Waiting for print jobs..."] ++
        ((List.range nTicks).flatMap fun t =>
          (tickResult renv printers dest t).logs) ++
        ["Mirror stopped"],
      events := (List.range nTicks).flatMap fun t =>
        (tickResult renv printers dest t).events,
      trackers := trackersAfter renv printers dest nTicks }

/-- Projection of a worker event to the shape shared with the service. -/
def Event.core : Event → EventCore
  | .skipTagged p j => .skipTagged p j
  | .copy p j r => .copy p j r.ok r.calls

end MirrorApp

/-! ### Basic lemmas about the set and dict models -/

theorem mem_setAdd {s : List Nat} {j i : Nat} : i ∈ setAdd s j ↔ i ∈ s ∨ i = j := by
  unfold setAdd
  split
  · rename_i h
    constructor
    · exact Or.inl
    · rintro (hi | rfl)
      · exact hi
      · exact h
  · simp [or_comm]

theorem mem_setInter {a b : List Nat} {i : Nat} : i ∈ setInter a b ↔ i ∈ a ∧ i ∈ b := by
  simp [setInter]

theorem mem_setDiff {a b : List Nat} {i : Nat} : i ∈ setDiff a b ↔ i ∈ a ∧ i ∉ b := by
  simp [setDiff]

theorem count_insertSorted (j i : Nat) (l : List Nat) :
    (insertSorted j l).count i = (j :: l).count i := by
  induction l with
  | nil => rfl
  | cons a rest ih =>
    unfold insertSorted
    split
    · rfl
    · rw [List.count_cons, ih, List.count_cons, List.count_cons, List.count_cons]
      omega

theorem count_sortNat (i : Nat) (l : List Nat) : (sortNat l).count i = l.count i := by
  induction l with
  | nil => rfl
  | cons a rest ih =>
    rw [sortNat, count_insertSorted, List.count_cons, List.count_cons, ih]

theorem mem_sortNat {i : Nat} {l : List Nat} : i ∈ sortNat l ↔ i ∈ l := by
  rw [← List.count_pos_iff, ← List.count_pos_iff, count_sortNat]

theorem keysOf_dictInsert (d : List (Nat × JobInfo)) (k : Nat) (v : JobInfo) :
    keysOf (dictInsert d k v) = if k ∈ keysOf d then keysOf d else keysOf d ++ [k] := by
  induction d with
  | nil => simp [dictInsert, keysOf]
  | cons kv rest ih =>
    obtain ⟨k', v'⟩ := kv
    unfold dictInsert
    by_cases hk : k' = k
    · subst hk
      simp [keysOf]
    · simp only [if_neg hk, keysOf, List.map_cons]
      simp only [keysOf] at ih
      rw [ih]
      by_cases hmem : k ∈ List.map Prod.fst rest
      · simp [hmem, Ne.symm hk]
      · simp [hmem, Ne.symm hk]

theorem nodup_keysOf_dictInsert {d : List (Nat × JobInfo)} (k : Nat) (v : JobInfo)
    (h : (keysOf d).Nodup) : (keysOf (dictInsert d k v)).Nodup := by
  rw [keysOf_dictInsert]
  split
  · exact h
  · rename_i hk
    simpa using List.Nodup.append h (List.nodup_singleton k) (by simpa using hk)

theorem nodup_keysOf_buildJobs (l : List RawJob) : (keysOf (buildJobs l)).Nodup := by
  suffices h : ∀ d : List (Nat × JobInfo), (keysOf d).Nodup →
      (keysOf (l.foldl (fun d r => dictInsert d r.jobId ⟨r.pDocument, r.status⟩) d)).Nodup by
    exact h [] (by simp [keysOf])
  induction l with
  | nil => intro d hd; exact hd
  | cons r rest ih =>
    intro d hd
    exact ih _ (nodup_keysOf_dictInsert _ _ hd)

theorem lookup_mem {j : Nat} {l : List (Nat × JobInfo)} {v : JobInfo}
    (h : List.lookup j l = some v) : j ∈ keysOf l := by
  induction l with
  | nil => simp [List.lookup] at h
  | cons kv rest ih =>
    obtain ⟨k, v'⟩ := kv
    rw [List.lookup] at h
    cases hk : (j == k) with
    | true =>
      obtain rfl : j = k := beq_iff_eq.mp hk
      simp [keysOf]
    | false =>
      rw [hk] at h
      exact List.mem_cons_of_mem _ (ih h)

/-! ### Lemmas about one printer's share of a service poll cycle -/

namespace MirrorService

/-- The printer a recorded event belongs to. -/
def Event.printerOf : Event → String
  | .skipTagged p _ => p
  | .copy p _ _ => p

/-- The events the processing of one new job id contributes. -/
def jobEvents (ce : Nat → CopyEnv) (dest printer : String)
    (current : List (Nat × JobInfo)) (j : Nat) : List Event :=
  let info := (List.lookup j current).getD default
  if strStartsWith info.document "[MIRROR" then [Event.skipTagged printer j]
  else [Event.copy printer j (copy_job (ce j) dest printer j info.document)]

theorem jobStep_tracker (ce : Nat → CopyEnv) (dest printer : String)
    (current : List (Nat × JobInfo)) (acc : StepAcc) (j : Nat) :
    (jobStep ce dest printer current acc j).tracker = setAdd acc.tracker j := by
  unfold jobStep
  dsimp only
  split <;> rfl

theorem jobStep_events (ce : Nat → CopyEnv) (dest printer : String)
    (current : List (Nat × JobInfo)) (acc : StepAcc) (j : Nat) :
    (jobStep ce dest printer current acc j).events =
      acc.events ++ jobEvents ce dest printer current j := by
  unfold jobStep jobEvents
  dsimp only
  split <;> rfl

theorem foldl_jobStep_tracker (ce : Nat → CopyEnv) (dest printer : String)
    (current : List (Nat × JobInfo)) (l : List Nat) (acc : StepAcc) (i : Nat) :
    i ∈ (l.foldl (jobStep ce dest printer current) acc).tracker ↔
      i ∈ acc.tracker ∨ i ∈ l := by
  induction l generalizing acc with
  | nil => simp
  | cons a rest ih =>
    rw [List.foldl_cons, ih, jobStep_tracker]
    rw [mem_setAdd]
    simp only [List.mem_cons]
    tauto

theorem foldl_jobStep_events (ce : Nat → CopyEnv) (dest printer : String)
    (current : List (Nat × JobInfo)) (l : List Nat) (acc : StepAcc) :
    (l.foldl (jobStep ce dest printer current) acc).events =
      acc.events ++ l.flatMap (jobEvents ce dest printer current) := by
  induction l generalizing acc with
  | nil => simp
  | cons a rest ih =>
    rw [List.foldl_cons, ih, jobStep_events]
    simp [List.append_assoc]

theorem processPrinter_tracker_iff (er : Option (List RawJob)) (ce : Nat → CopyEnv)
    (dest printer : String) (tr : List Nat) (i : Nat) :
    i ∈ (processPrinter er ce dest printer tr).tracker ↔
      i ∈ keysOf (get_current_jobs er) := by
  unfold processPrinter
  dsimp only
  rw [mem_setInter]
  constructor
  · exact And.right
  · intro h
    refine ⟨?_, h⟩
    rw [foldl_jobStep_tracker]
    by_cases htr : i ∈ tr
    · exact Or.inl htr
    · exact Or.inr (by rw [mem_sortNat, mem_setDiff]; exact ⟨h, htr⟩)

theorem processPrinter_events (er : Option (List RawJob)) (ce : Nat → CopyEnv)
    (dest printer : String) (tr : List Nat) :
    (processPrinter er ce dest printer tr).events =
      (sortNat (setDiff (keysOf (get_current_jobs er)) tr)).flatMap
        (jobEvents ce dest printer (get_current_jobs er)) := by
  unfold processPrinter
  dsimp only
  rw [foldl_jobStep_events]
  rfl

theorem jobEvents_printer {e : Event} (ce : Nat → CopyEnv) (dest printer : String)
    (current : List (Nat × JobInfo)) (j : Nat)
    (h : e ∈ jobEvents ce dest printer current j) : e.printerOf = printer := by
  unfold jobEvents at h
  dsimp only at h
  split at h <;> (obtain rfl := List.mem_singleton.mp h; rfl)

theorem processPrinter_events_printer {e : Event} (er : Option (List RawJob))
    (ce : Nat → CopyEnv) (dest printer : String) (tr : List Nat)
    (h : e ∈ (processPrinter er ce dest printer tr).events) : e.printerOf = printer := by
  rw [processPrinter_events] at h
  obtain ⟨j, -, hj⟩ := List.mem_flatMap.mp h
  exact jobEvents_printer _ _ _ _ _ hj

/-- The predicate counted by `copyCount`. -/
def copyPred (p : String) (j : Nat) : Event → Bool := fun e =>
  match e with
  | .copy p' j' _ => p' == p && j' == j
  | _ => false

theorem copyCount_eq (evs : List Event) (p : String) (j : Nat) :
    copyCount evs p j = evs.countP (copyPred p j) := rfl

theorem copyCount_append (a b : List Event) (p : String) (j : Nat) :
    copyCount (a ++ b) p j = copyCount a p j + copyCount b p j := by
  rw [copyCount_eq, copyCount_eq, copyCount_eq]
  exact List.countP_append _ _ _

theorem copyCount_eq_zero_of_printer_ne {evs : List Event} {p : String} (j : Nat)
    (h : ∀ e ∈ evs, Event.printerOf e ≠ p) : copyCount evs p j = 0 := by
  rw [copyCount_eq, List.countP_eq_zero]
  intro e he
  specialize h e he
  cases e with
  | skipTagged q i => simp [copyPred]
  | copy q i r =>
    simp only [Event.printerOf] at h
    simp [copyPred, h]

theorem copyCount_jobEvents_ne (ce : Nat → CopyEnv) (dest printer : String)
    (current : List (Nat × JobInfo)) {j' j : Nat} (p : String) (hne : j' ≠ j) :
    copyCount (jobEvents ce dest printer current j') p j = 0 := by
  unfold jobEvents
  dsimp only
  rw [copyCount_eq]
  split <;> simp [copyPred, List.countP_cons, hne]

theorem copyCount_jobEvents_le_one (ce : Nat → CopyEnv) (dest printer : String)
    (current : List (Nat × JobInfo)) (j' j : Nat) (p : String) :
    copyCount (jobEvents ce dest printer current j') p j ≤ 1 := by
  unfold jobEvents
  dsimp only
  rw [copyCount_eq]
  split <;> (rw [List.countP_singleton]; split <;> omega)

theorem copyCount_jobEvents_tagged (ce : Nat → CopyEnv) (dest printer : String)
    {current : List (Nat × JobInfo)} {j : Nat} {info : JobInfo} (p : String)
    (hlook : List.lookup j current = some info)
    (htag : strStartsWith info.document "[MIRROR" = true) :
    copyCount (jobEvents ce dest printer current j) p j = 0 := by
  unfold jobEvents
  dsimp only
  rw [hlook]
  simp only [Option.getD_some]
  rw [if_pos htag, copyCount_eq, List.countP_singleton]
  simp [copyPred]

theorem copyCount_flatMap_zero {f : Nat → List Event} {l : List Nat} {p : String}
    {j : Nat} (h : ∀ x ∈ l, copyCount (f x) p j = 0) :
    copyCount (l.flatMap f) p j = 0 := by
  induction l with
  | nil => rfl
  | cons a rest ih =>
    rw [List.flatMap_cons, copyCount_append, h a (List.mem_cons_self a rest),
      ih fun x hx => h x (List.mem_cons_of_mem a hx)]

theorem copyCount_flatMap_le_one {f : Nat → List Event} {l : List Nat} {p : String}
    {j : Nat} (hcount : l.count j ≤ 1)
    (hne : ∀ x ∈ l, x ≠ j → copyCount (f x) p j = 0)
    (hself : copyCount (f j) p j ≤ 1) :
    copyCount (l.flatMap f) p j ≤ 1 := by
  induction l with
  | nil => simp [copyCount_eq]
  | cons a rest ih =>
    rw [List.flatMap_cons, copyCount_append]
    by_cases ha : a = j
    · subst ha
      have hnotin : a ∉ rest := by
        rw [List.count_cons_self] at hcount
        rw [← List.count_eq_zero]
        omega
      have hrest : copyCount (rest.flatMap f) p a = 0 :=
        copyCount_flatMap_zero fun x hx =>
          hne x (List.mem_cons_of_mem a hx) (fun hxj => hnotin (hxj ▸ hx))
      omega
    · have h0 : copyCount (f a) p j = 0 := hne a (List.mem_cons_self a rest) ha
      have hc : rest.count j ≤ 1 := by
        rw [List.count_cons] at hcount
        omega
      have := ih hc fun x hx hxj => hne x (List.mem_cons_of_mem a hx) hxj
      omega

theorem nodup_keysOf_get_current_jobs (er : Option (List RawJob)) :
    (keysOf (get_current_jobs er)).Nodup := by
  cases er with
  | none => simp [get_current_jobs, keysOf]
  | some l => exact nodup_keysOf_buildJobs l

theorem processPrinter_copyCount_le_one (er : Option (List RawJob))
    (ce : Nat → CopyEnv) (dest p : String) (tr : List Nat) (j : Nat) :
    copyCount (processPrinter er ce dest p tr).events p j ≤ 1 := by
  rw [processPrinter_events]
  apply copyCount_flatMap_le_one
  · rw [count_sortNat]
    calc (setDiff (keysOf (get_current_jobs er)) tr).count j
        ≤ (keysOf (get_current_jobs er)).count j :=
          (List.filter_sublist _).count_le _
      _ ≤ 1 := List.nodup_iff_count_le_one.mp (nodup_keysOf_get_current_jobs er) j
  · intro x _ hx
    exact copyCount_jobEvents_ne _ _ _ _ _ hx
  · exact copyCount_jobEvents_le_one _ _ _ _ _ _ _

theorem processPrinter_copyCount_of_mem_tr (er : Option (List RawJob))
    (ce : Nat → CopyEnv) (dest p : String) {tr : List Nat} {j : Nat}
    (htr : j ∈ tr) : copyCount (processPrinter er ce dest p tr).events p j = 0 := by
  rw [processPrinter_events]
  apply copyCount_flatMap_zero
  intro x hx
  have hxj : x ≠ j := by
    rw [mem_sortNat, mem_setDiff] at hx
    rintro rfl
    exact hx.2 htr
  exact copyCount_jobEvents_ne _ _ _ _ _ hxj

theorem processPrinter_copyCount_of_tagged (er : Option (List RawJob))
    (ce : Nat → CopyEnv) (dest p : String) (tr : List Nat) {j : Nat} {info : JobInfo}
    (hlook : List.lookup j (get_current_jobs er) = some info)
    (htag : strStartsWith info.document "[MIRROR" = true) :
    copyCount (processPrinter er ce dest p tr).events p j = 0 := by
  rw [processPrinter_events]
  apply copyCount_flatMap_zero
  intro x hx
  by_cases hxj : x = j
  · subst hxj
    exact copyCount_jobEvents_tagged _ _ _ _ hlook htag
  · exact copyCount_jobEvents_ne _ _ _ _ _ hxj

end MirrorService

/-! ### Lemmas about a full service poll cycle and the main loop -/

namespace MirrorService

theorem cycleGo_trackers_notmem {env : Env} {dest : String} {l : List String}
    {p : String} (hp : p ∉ l) (acc : CycleResult) :
    (cycleGo env dest l acc).trackers p = acc.trackers p := by
  induction l generalizing acc with
  | nil => rfl
  | cons q rest ih =>
    rw [cycleGo]
    rw [ih (fun h => hp (List.mem_cons_of_mem q h))]
    dsimp only
    have hpq : p ≠ q := by
      intro h
      subst h
      exact hp (List.mem_cons_self p rest)
    exact Function.update_noteq hpq _ _

theorem cycleGo_trackers_mem {env : Env} {dest : String} {l : List String}
    {p : String} (hnd : l.Nodup) (hp : p ∈ l) (acc : CycleResult) :
    (cycleGo env dest l acc).trackers p =
      (processPrinter (env.enum p) (env.copyEnv p) dest p (acc.trackers p)).tracker := by
  induction l generalizing acc with
  | nil => cases hp
  | cons q rest ih =>
    obtain ⟨hq, hndr⟩ := List.nodup_cons.mp hnd
    rw [cycleGo]
    rcases List.mem_cons.mp hp with rfl | hp'
    · rw [cycleGo_trackers_notmem hq]
      dsimp only
      rw [Function.update_same]
    · have hqp : q ≠ p := fun h => hq (h ▸ hp')
      rw [ih hndr hp']
      dsimp only
      rw [Function.update_noteq (Ne.symm hqp)]

theorem cycleGo_copyCount_notmem {env : Env} {dest : String} {l : List String}
    {p : String} (hp : p ∉ l) (acc : CycleResult) (j : Nat) :
    copyCount (cycleGo env dest l acc).events p j = copyCount acc.events p j := by
  induction l generalizing acc with
  | nil => rfl
  | cons q rest ih =>
    rw [cycleGo]
    rw [ih (fun h => hp (List.mem_cons_of_mem q h))]
    dsimp only
    rw [copyCount_append]
    have hz : copyCount (processPrinter (env.enum q) (env.copyEnv q) dest q
        (acc.trackers q)).events p j = 0 := by
      apply copyCount_eq_zero_of_printer_ne
      intro e he
      rw [processPrinter_events_printer _ _ _ _ _ he]
      exact fun h => hp (h ▸ List.mem_cons_self q rest)
    omega

theorem cycleGo_copyCount_mem {env : Env} {dest : String} {l : List String}
    {p : String} (hnd : l.Nodup) (hp : p ∈ l) (acc : CycleResult) (j : Nat) :
    copyCount (cycleGo env dest l acc).events p j =
      copyCount acc.events p j +
        copyCount (processPrinter (env.enum p) (env.copyEnv p) dest p
          (acc.trackers p)).events p j := by
  induction l generalizing acc with
  | nil => cases hp
  | cons q rest ih =>
    obtain ⟨hq, hndr⟩ := List.nodup_cons.mp hnd
    rw [cycleGo]
    rcases List.mem_cons.mp hp with rfl | hp'
    · rw [cycleGo_copyCount_notmem hq]
      dsimp only
      rw [copyCount_append]
    · have hqp : q ≠ p := fun h => hq (h ▸ hp')
      rw [ih hndr hp']
      dsimp only
      rw [copyCount_append, Function.update_noteq (Ne.symm hqp)]
      have hz : copyCount (processPrinter (env.enum q) (env.copyEnv q) dest q
          (acc.trackers q)).events p j = 0 := by
        apply copyCount_eq_zero_of_printer_ne
        intro e he
        rw [processPrinter_events_printer _ _ _ _ _ he]
        exact hqp
      omega

theorem run_once_trackers_mem {env : Env} {printers : List String} {dest : String}
    {p : String} (hnd : printers.Nodup) (hp : p ∈ printers)
    (trackers : String → List Nat) :
    (run_once env printers dest true trackers).trackers p =
      (processPrinter (env.enum p) (env.copyEnv p) dest p (trackers p)).tracker := by
  unfold run_once
  rw [if_pos rfl]
  exact cycleGo_trackers_mem hnd hp _

theorem run_once_copyCount {env : Env} {printers : List String} {dest : String}
    {p : String} (hnd : printers.Nodup) (hp : p ∈ printers)
    (trackers : String → List Nat) (j : Nat) :
    copyCount (run_once env printers dest true trackers).events p j =
      copyCount (processPrinter (env.enum p) (env.copyEnv p) dest p
        (trackers p)).events p j := by
  unfold run_once
  rw [if_pos rfl]
  rw [cycleGo_copyCount_mem hnd hp]
  simp [copyCount_eq]

theorem foldlUpdate_apply {β : Type} (g : String → β) (l : List String)
    (tr : String → β) (p : String) :
    (l.foldl (fun tr q => Function.update tr q (g q)) tr) p =
      if p ∈ l then g p else tr p := by
  induction l generalizing tr with
  | nil => simp
  | cons q rest ih =>
    rw [List.foldl_cons, ih]
    by_cases hp : p ∈ rest
    · simp [hp]
    · by_cases hpq : p = q
      · subst hpq
        simp [hp, Function.update_same]
      · simp [hp, hpq, Function.update_noteq hpq]

theorem seedTrackers_apply (seedEnum : String → Option (List RawJob))
    (printers : List String) {p : String} (hp : p ∈ printers) :
    seedTrackers seedEnum printers p = keysOf (get_current_jobs (seedEnum p)) := by
  unfold seedTrackers
  rw [foldlUpdate_apply]
  rw [if_pos hp]

theorem trackersAfter_succ (renv : RunEnv) (printers : List String) (dest : String)
    (n : Nat) :
    trackersAfter renv printers dest (n + 1) =
      (run_once (renv.tick n) printers dest true
        (trackersAfter renv printers dest n)).trackers := rfl

/-- Core per-tick invariant: if a job id is enumerated on its printer at
tick `t`, it is in that printer's tracker after the tick; and if it was
already in the tracker before the tick, the tick makes no copy attempt
for it. -/
theorem tick_invariant {renv : RunEnv} {printers : List String} {dest : String}
    {p : String} (hnd : printers.Nodup) (hp : p ∈ printers) {t j : Nat}
    (hcur : j ∈ currentIdsAt renv p t) :
    j ∈ trackersAfter renv printers dest (t + 1) p ∧
      (j ∈ trackersAfter renv printers dest t p →
        copyCount (tickResult renv printers dest t).events p j = 0) := by
  constructor
  · rw [trackersAfter_succ, run_once_trackers_mem hnd hp,
      processPrinter_tracker_iff]
    exact hcur
  · intro htr
    unfold tickResult
    rw [run_once_copyCount hnd hp]
    exact processPrinter_copyCount_of_mem_tr _ _ _ _ htr

theorem tick_copyCount_le_one {renv : RunEnv} {printers : List String}
    {dest : String} {p : String} (hnd : printers.Nodup) (hp : p ∈ printers)
    (t j : Nat) :
    copyCount (tickResult renv printers dest t).events p j ≤ 1 := by
  unfold tickResult
  rw [run_once_copyCount hnd hp]
  exact processPrinter_copyCount_le_one _ _ _ _ _ _

end MirrorService

/-! ### Lemmas about the retrying spool reader -/

namespace MirrorService

theorem read_go_attempts (fs : Nat → SpoolFS) (jobId retries : Nat) (l : List Nat) :
    (read_spool_go fs jobId retries l).attempts ≤ l.length := by
  induction l with
  | nil => simp [read_spool_go]
  | cons a rest ih =>
    rw [read_spool_go]
    split
    · split
      · simp
      · dsimp only
        rw [List.length_cons]
        omega
    · dsimp only
      rw [List.length_cons]
      omega

theorem read_go_data_sound (fs : Nat → SpoolFS) (jobId retries : Nat) (l : List Nat) :
    (read_spool_go fs jobId retries l).data = none ∨
      ∃ a ∈ l, ∃ f, find_spool_file (fs a) jobId = some f ∧ f.readOk = true ∧
        f.data ≠ [] ∧ (read_spool_go fs jobId retries l).data = some f.data := by
  induction l with
  | nil => exact Or.inl rfl
  | cons a rest ih =>
    rw [read_spool_go]
    split
    · rename_i f heq
      split
      · rename_i hgood
        right
        rw [Bool.and_eq_true, Bool.not_eq_true'] at hgood
        refine ⟨a, List.mem_cons_self a rest, f, heq, hgood.1, ?_, rfl⟩
        intro hnil
        rw [hnil] at hgood
        simp at hgood
      · dsimp only
        rcases ih with h | ⟨a', ha', f', hf', hro, hne, hd⟩
        · exact Or.inl h
        · exact Or.inr ⟨a', List.mem_cons_of_mem a ha', f', hf', hro, hne, hd⟩
    · dsimp only
      rcases ih with h | ⟨a', ha', f', hf', hro, hne, hd⟩
      · exact Or.inl h
      · exact Or.inr ⟨a', List.mem_cons_of_mem a ha', f', hf', hro, hne, hd⟩

theorem read_go_never_found (fs : Nat → SpoolFS) (jobId retries : Nat) (l : List Nat)
    (h : ∀ a ∈ l, find_spool_file (fs a) jobId = none) :
    (read_spool_go fs jobId retries l).data = none ∧
      (read_spool_go fs jobId retries l).timeMs ≤ 500 * l.length := by
  induction l with
  | nil => simp [read_spool_go]
  | cons a rest ih =>
    rw [read_spool_go, h a (List.mem_cons_self a rest)]
    dsimp only
    obtain ⟨hd, ht⟩ := ih fun x hx => h x (List.mem_cons_of_mem a hx)
    refine ⟨hd, ?_⟩
    rw [List.length_cons]
    split <;> omega

theorem read_go_first_success (fs : Nat → SpoolFS) (jobId retries : Nat)
    (a : Nat) (l : List Nat) {f : SpoolFile}
    (hf : find_spool_file (fs a) jobId = some f) (hro : f.readOk = true)
    (hne : f.data ≠ []) :
    read_spool_go fs jobId retries (a :: l) = ⟨some f.data, 300, 1⟩ := by
  have hemp : f.data.isEmpty = false := by
    cases hdata : f.data
    · exact absurd hdata hne
    · rfl
  have hcond : (f.readOk && !f.data.isEmpty) = true := by
    rw [hro, hemp]
    rfl
  rw [read_spool_go, hf]
  dsimp only
  rw [if_pos hcond]

end MirrorService

/-! ### Claim C9: bounded, content-faithful retrying spool reader -/

/-- C9: the retrying spool reader makes at most `retries` locate attempts;
any bytes it returns are the full content of a file located and
successfully read during one of those attempts (it returns immediately on
the first nonempty read); and when the file never appears it returns
"unavailable" (`none`) within `retries * (300 + 500)` ms of sleeping. -/
theorem spec_c9_bounded_retrying_reader (fs : Nat → SpoolFS) (jobId retries : Nat) :
    (MirrorService.read_spool_full fs jobId retries).attempts ≤ retries ∧
    ((MirrorService.read_spool_full fs jobId retries).data = none ∨
      ∃ k, k < retries ∧ ∃ f, MirrorService.find_spool_file (fs k) jobId = some f ∧
        f.readOk = true ∧ f.data ≠ [] ∧
        (MirrorService.read_spool_full fs jobId retries).data = some f.data) ∧
    ((∀ k, k < retries → MirrorService.find_spool_file (fs k) jobId = none) →
      (MirrorService.read_spool_full fs jobId retries).data = none ∧
        (MirrorService.read_spool_full fs jobId retries).timeMs ≤ retries * (300 + 500)) ∧
    (∀ f, 0 < retries → MirrorService.find_spool_file (fs 0) jobId = some f →
      f.readOk = true → f.data ≠ [] →
      MirrorService.read_spool_full fs jobId retries = ⟨some f.data, 300, 1⟩) := by
  refine ⟨?_, ?_, ?_, ?_⟩
  · have := MirrorService.read_go_attempts fs jobId retries (List.range retries)
    rwa [List.length_range] at this
  · rcases MirrorService.read_go_data_sound fs jobId retries (List.range retries) with h | h
    · exact Or.inl h
    · obtain ⟨a, ha, f, hf, hro, hne, hd⟩ := h
      exact Or.inr ⟨a, List.mem_range.mp ha, f, hf, hro, hne, hd⟩
  · intro h
    have hnv := MirrorService.read_go_never_found fs jobId retries (List.range retries)
      fun a ha => h a (List.mem_range.mp ha)
    refine ⟨hnv.1, ?_⟩
    have ht := hnv.2
    rw [List.length_range] at ht
    unfold MirrorService.read_spool_full
    omega
  · intro f hret hf hro hne
    unfold MirrorService.read_spool_full
    obtain ⟨r, rfl⟩ : ∃ r, retries = r + 1 := ⟨retries - 1, by omega⟩
    rw [List.range_succ_eq_map]
    exact MirrorService.read_go_first_success fs jobId (r + 1) 0 _ hf hro hne

/-- Spool directory with no files at all, for the C9 witness. -/
def emptyFS : SpoolFS := ⟨[], true⟩

/-- Witness for C9 at a concrete never-appearing spool file: the read
fails within the stated bound and uses at most five attempts. -/
theorem spec_c9_bounded_retrying_reader_witness :
    (MirrorService.read_spool_full (fun _ => emptyFS) 7 5).attempts ≤ 5 ∧
    (MirrorService.read_spool_full (fun _ => emptyFS) 7 5).data = none ∧
    (MirrorService.read_spool_full (fun _ => emptyFS) 7 5).timeMs ≤ 5 * (300 + 500) := by
  obtain ⟨h1, -, h3, -⟩ := spec_c9_bounded_retrying_reader (fun _ => emptyFS) 7 5
  obtain ⟨hd, ht⟩ := h3 (by decide)
  exact ⟨h1, hd, ht⟩

/-! ### Claims C6 and C8: the destination-submission protocol -/

/-- A spool file whose deterministic name matches job id 1, successfully
readable, holding three payload bytes. -/
def fileJob1 : SpoolFile := ⟨"FP00001.SPL", true, 3, 10, true, [37, 80, 68]⟩

/-- A spool directory holding exactly `fileJob1`. -/
def fsJob1 : SpoolFS := ⟨[fileJob1], true⟩

/-- Printer API where every call succeeds; `StartDocPrinter` returns 7. -/
def w32AllOk : W32Env := ⟨true, true, 7, true, true, true, true, true⟩

/-- Copy environment where everything succeeds. -/
def ceAllOk : CopyEnv := ⟨fun _ => fsJob1, w32AllOk⟩

/-- Copy environment where only `WritePrinter` fails. -/
def ceWriteFail : CopyEnv := ⟨fun _ => fsJob1, ⟨true, true, 7, true, false, true, true, true⟩⟩

/-- Counterexample to C6 as stated: with the destination handle opened and
the payload write failing, the trace runs end-document and close-handle
but never end-page — `EndPagePrinter` is not inside a `finally`, so the
claimed "end-page always executes" is false. -/
theorem spec_c6_counterexample :
    (MirrorService.copy_job ceWriteFail "D" "A" 1 "Doc").calls =
      [.openPrinter "D", .startDoc "[MIRROR:A] Doc" "RAW", .startPage,
       .write [37, 80, 68], .endDoc, .closePrinter] ∧
    PrintCall.endPage ∉ (MirrorService.copy_job ceWriteFail "D" "A" 1 "Doc").calls := by
  decide

/-- C6 (amended): once the destination handle is opened, close-handle
always executes; once start-document succeeds, end-document always
executes even if a later step fails; end-page, however, executes only when
start-page and the payload write both succeed. -/
theorem spec_c6_cleanup_guarantees (ce : CopyEnv) (dest source : String)
    (jobId : Nat) (document : String) (data : List Nat)
    (hread : MirrorService.read_spool_data ce.fs jobId 5 = some data)
    (hopen : ce.w32.openOk = true) :
    PrintCall.closePrinter ∈ (MirrorService.copy_job ce dest source jobId document).calls ∧
    (ce.w32.startDocOk = true →
      PrintCall.endDoc ∈ (MirrorService.copy_job ce dest source jobId document).calls) ∧
    (ce.w32.startDocOk = true → ce.w32.startPageOk = true → ce.w32.writeOk = true →
      PrintCall.endPage ∈ (MirrorService.copy_job ce dest source jobId document).calls) := by
  unfold MirrorService.copy_job
  rw [hread]
  cases hsd : ce.w32.startDocOk <;>
    cases hsp : ce.w32.startPageOk <;>
      cases hwr : ce.w32.writeOk <;>
        cases hep : ce.w32.endPageOk <;>
          cases hed : ce.w32.endDocOk <;>
            cases hcl : ce.w32.closeOk <;>
              simp [hopen, hsd, hsp, hwr, hep, hed, hcl]

/-- Witness for the amended C6 at a fully succeeding environment. -/
theorem spec_c6_cleanup_guarantees_witness :
    PrintCall.closePrinter ∈ (MirrorService.copy_job ceAllOk "D" "A" 1 "Doc").calls ∧
    PrintCall.endDoc ∈ (MirrorService.copy_job ceAllOk "D" "A" 1 "Doc").calls ∧
    PrintCall.endPage ∈ (MirrorService.copy_job ceAllOk "D" "A" 1 "Doc").calls := by
  obtain ⟨h1, h2, h3⟩ :=
    spec_c6_cleanup_guarantees ceAllOk "D" "A" 1 "Doc" [37, 80, 68] (by decide) (by decide)
  exact ⟨h1, h2 (by decide), h3 (by decide) (by decide) (by decide)⟩

/-- Copy environment identical to `ceAllOk` except the destination assigns
new job id 8 instead of 7. -/
def ceAllOkId8 : CopyEnv := ⟨fun _ => fsJob1, ⟨true, true, 8, true, true, true, true, true⟩⟩

/-- Counterexample to C8 as stated: two successful submissions that are
assigned different destination job ids produce identical `_copy_job`
return values (the Boolean `True`), so the submitter does not return the
new destination job id — it only logs it. -/
theorem spec_c8_counterexample :
    (MirrorService.copy_job ceAllOk "D" "A" 1 "Doc").ok = true ∧
    (MirrorService.copy_job ceAllOkId8 "D" "A" 1 "Doc").ok = true ∧
    ceAllOk.w32.newJobId ≠ ceAllOkId8.w32.newJobId ∧
    (MirrorService.copy_job ceAllOk "D" "A" 1 "Doc").ok =
      (MirrorService.copy_job ceAllOkId8 "D" "A" 1 "Doc").ok := by
  decide

/-- C8 (amended): on a fully successful submission the new raw-mode job
receives exactly the captured payload bytes in one write, its document
name is the mirror tag with the source label prepended to the original
name, and the submitter returns `True` while logging the new destination
job id and the byte count. -/
theorem spec_c8_submission_contract (ce : CopyEnv) (dest source : String)
    (jobId : Nat) (document : String) (data : List Nat)
    (hread : MirrorService.read_spool_data ce.fs jobId 5 = some data)
    (ho : ce.w32.openOk = true) (hsd : ce.w32.startDocOk = true)
    (hsp : ce.w32.startPageOk = true) (hwr : ce.w32.writeOk = true)
    (hep : ce.w32.endPageOk = true) (hed : ce.w32.endDocOk = true)
    (hcl : ce.w32.closeOk = true) :
    MirrorService.copy_job ce dest source jobId document =
      ⟨true,
       [.openPrinter dest,
        .startDoc ("[MIRROR:" ++ source ++ "] " ++ document) "RAW",
        .startPage, .write data, .endPage, .endDoc, .closePrinter],
       ["OK: [" ++ source ++ "] Job " ++ toString jobId ++ " -> " ++ dest ++
        " (new: " ++ toString ce.w32.newJobId ++ ", " ++ toString data.length ++
        " bytes)"]⟩ := by
  unfold MirrorService.copy_job
  rw [hread]
  simp [ho, hsd, hsp, hwr, hep, hed, hcl]

/-- Witness for the amended C8 at a fully succeeding environment. -/
theorem spec_c8_submission_contract_witness :
    MirrorService.copy_job ceAllOk "D" "A" 1 "Doc" =
      ⟨true,
       [.openPrinter "D", .startDoc "[MIRROR:A] Doc" "RAW", .startPage,
        .write [37, 80, 68], .endPage, .endDoc, .closePrinter],
       ["OK: [A] Job 1 -> D (new: 7, 3 bytes)"]⟩ := by
  have h := spec_c8_submission_contract ceAllOk "D" "A" 1 "Doc" [37, 80, 68]
    (by decide) (by decide) (by decide) (by decide) (by decide) (by decide)
    (by decide) (by decide)
  rw [h]
  decide

/-! ### Claim C7: unreadable spool directory is fatal at startup -/

/-- C7: if the startup check of the spool directory fails, both engines
log the fatal line and return in the error state before enumerating or
submitting anything. -/
theorem spec_c7_spool_unreadable_fatal (renv : RunEnv) (printers : List String)
    (dest : String) (n : Nat) (h : renv.spoolOk = false) :
    (MirrorService.run renv printers dest n).outcome = MirrorService.RunOutcome.error ∧
    (MirrorService.run renv printers dest n).events = [] ∧
    (MirrorService.run renv printers dest n).seedEnumPrinters = [] ∧
    (MirrorService.run renv printers dest n).copied = 0 ∧
    "ERROR: No access to spool directory. Run as Administrator/SYSTEM." ∈
      (MirrorService.run renv printers dest n).logs ∧
    (MirrorApp.run renv printers dest n).statuses = ["running", "error"] ∧
    (MirrorApp.run renv printers dest n).events = [] ∧
    "ERROR: No access to spool. Run as Administrator." ∈
      (MirrorApp.run renv printers dest n).logs := by
  unfold MirrorService.run MirrorApp.run
  rw [h]
  simp

/-- A run environment whose spool directory is unreadable at startup. -/
def noSpoolEnv : RunEnv :=
  ⟨false, fun _ => some [], fun _ => ⟨fun _ => some [], fun _ _ => ceAllOk⟩⟩

/-- Witness for C7 at a concrete unreadable-spool environment. -/
theorem spec_c7_spool_unreadable_fatal_witness :
    (MirrorService.run noSpoolEnv ["A"] "D" 3).outcome = MirrorService.RunOutcome.error ∧
    (MirrorService.run noSpoolEnv ["A"] "D" 3).events = [] ∧
    (MirrorService.run noSpoolEnv ["A"] "D" 3).seedEnumPrinters = [] ∧
    (MirrorService.run noSpoolEnv ["A"] "D" 3).copied = 0 ∧
    "ERROR: No access to spool directory. Run as Administrator/SYSTEM." ∈
      (MirrorService.run noSpoolEnv ["A"] "D" 3).logs ∧
    (MirrorApp.run noSpoolEnv ["A"] "D" 3).statuses = ["running", "error"] ∧
    (MirrorApp.run noSpoolEnv ["A"] "D" 3).events = [] ∧
    "ERROR: No access to spool. Run as Administrator." ∈
      (MirrorApp.run noSpoolEnv ["A"] "D" 3).logs :=
  spec_c7_spool_unreadable_fatal noSpoolEnv ["A"] "D" 3 (by decide)

/-! ### Claim C1: no self-mirroring within one poll cycle -/

/-- C1: a job whose document name starts with the mirror tag is never
handed to `_copy_job` during a poll cycle (hence no submission is made for
it), and its id ends the cycle inside its source's tracker. -/
theorem spec_c1_no_self_mirroring {env : Env} {printers : List String}
    {dest p : String} {j : Nat} {info : JobInfo} (trackers : String → List Nat)
    (hnd : printers.Nodup) (hp : p ∈ printers)
    (hlook : List.lookup j (MirrorService.get_current_jobs (env.enum p)) = some info)
    (htag : strStartsWith info.document "[MIRROR" = true) :
    MirrorService.copyCount
        (MirrorService.run_once env printers dest true trackers).events p j = 0 ∧
      j ∈ (MirrorService.run_once env printers dest true trackers).trackers p := by
  constructor
  · rw [MirrorService.run_once_copyCount hnd hp]
    exact MirrorService.processPrinter_copyCount_of_tagged _ _ _ _ _ hlook htag
  · rw [MirrorService.run_once_trackers_mem hnd hp,
      MirrorService.processPrinter_tracker_iff]
    exact lookup_mem hlook

/-- Tick environment whose only job carries the mirror tag. -/
def envTagged : Env :=
  ⟨fun _ => some [⟨1, "[MIRROR:A] Doc", 0⟩], fun _ _ => ceAllOk⟩

/-- Witness for C1 at a concrete tagged job. -/
theorem spec_c1_no_self_mirroring_witness :
    MirrorService.copyCount
        (MirrorService.run_once envTagged ["A"] "D" true fun _ => []).events "A" 1 = 0 ∧
      1 ∈ (MirrorService.run_once envTagged ["A"] "D" true fun _ => []).trackers "A" :=
  @spec_c1_no_self_mirroring envTagged ["A"] "D" "A" 1 ⟨"[MIRROR:A] Doc", 0⟩
    (fun _ => []) (by decide) (by decide) (by decide) (by decide)

/-! ### Claim C3: the tracker invariant of one poll cycle -/

/-- C3: after a poll cycle over a source, the tracker equals (previous
tracker ∩ currently enumerated ids) ∪ (ids newly seen this cycle), and in
particular is a subset of the currently enumerated ids. -/
theorem spec_c3_tracker_invariant {env : Env} {printers : List String}
    {dest p : String} (trackers : String → List Nat)
    (hnd : printers.Nodup) (hp : p ∈ printers) :
    (∀ i, i ∈ (MirrorService.run_once env printers dest true trackers).trackers p ↔
      ((i ∈ trackers p ∧ i ∈ keysOf (MirrorService.get_current_jobs (env.enum p))) ∨
        (i ∈ keysOf (MirrorService.get_current_jobs (env.enum p)) ∧
          i ∉ trackers p))) ∧
    (∀ i, i ∈ (MirrorService.run_once env printers dest true trackers).trackers p →
      i ∈ keysOf (MirrorService.get_current_jobs (env.enum p))) := by
  have key : ∀ i, i ∈ (MirrorService.run_once env printers dest true trackers).trackers p ↔
      i ∈ keysOf (MirrorService.get_current_jobs (env.enum p)) := by
    intro i
    rw [MirrorService.run_once_trackers_mem hnd hp,
      MirrorService.processPrinter_tracker_iff]
  constructor
  · intro i
    rw [key i]
    by_cases h : i ∈ trackers p <;> tauto
  · intro i hi
    exact (key i).mp hi

/-- Witness for C3 at a concrete cycle: id 2 is newly seen, id 5 was
tracked but is gone, and the invariant equality holds for both. -/
theorem spec_c3_tracker_invariant_witness :
    (2 ∈ (MirrorService.run_once envTagged ["A"] "D" true fun _ => [5]).trackers "A" ↔
      ((2 ∈ [5] ∧ 2 ∈ keysOf (MirrorService.get_current_jobs (envTagged.enum "A"))) ∨
        (2 ∈ keysOf (MirrorService.get_current_jobs (envTagged.enum "A")) ∧
          2 ∉ [5]))) ∧
    (5 ∈ (MirrorService.run_once envTagged ["A"] "D" true fun _ => [5]).trackers "A" ↔
      ((5 ∈ [5] ∧ 5 ∈ keysOf (MirrorService.get_current_jobs (envTagged.enum "A"))) ∨
        (5 ∈ keysOf (MirrorService.get_current_jobs (envTagged.enum "A")) ∧
          5 ∉ [5]))) :=
  ⟨(spec_c3_tracker_invariant (fun _ => [5]) (by decide) (by decide)).1 2,
   (spec_c3_tracker_invariant (fun _ => [5]) (by decide) (by decide)).1 5⟩

/-! ### Claim C4: transient enumeration failure -/

/-- Tick environment in which every enumeration raises. -/
def enumFailEnv : Env := ⟨fun _ => none, fun _ _ => ceAllOk⟩

/-- Counterexample to C4 as stated: the snapshot reader indeed swallows
the failure and returns an empty mapping, but the cycle then runs the
intersection step against that empty mapping and deletes every tracker
entry — here a tracker holding ids 1 and 2 is emptied by one failing
tick, contradicting "no entries are deleted". -/
theorem spec_c4_counterexample :
    enumFailEnv.enum "A" = none ∧
    MirrorService.get_current_jobs (enumFailEnv.enum "A") = [] ∧
    (MirrorService.run_once enumFailEnv ["A"] "D" true fun _ => [1, 2]).trackers "A" = [] := by
  decide

/-- C4 (amended): on transient enumeration failure the snapshot reader
returns an empty mapping without raising, and the cycle processes no job
of that source — but it does not treat the tick as "no change": the
intersection step clears that source's tracker. -/
theorem spec_c4_enum_failure_behavior {env : Env} {printers : List String}
    {dest p : String} (trackers : String → List Nat)
    (hnd : printers.Nodup) (hp : p ∈ printers) (henum : env.enum p = none) :
    MirrorService.get_current_jobs (env.enum p) = [] ∧
    (MirrorService.run_once env printers dest true trackers).trackers p = [] ∧
    (∀ j, MirrorService.copyCount
      (MirrorService.run_once env printers dest true trackers).events p j = 0) := by
  refine ⟨by rw [henum]; rfl, ?_, ?_⟩
  · rw [MirrorService.run_once_trackers_mem hnd hp]
    unfold MirrorService.processPrinter
    dsimp only
    rw [henum]
    simp [MirrorService.get_current_jobs, keysOf, setInter]
  · intro j
    rw [MirrorService.run_once_copyCount hnd hp,
      MirrorService.processPrinter_events, henum]
    simp [MirrorService.get_current_jobs, keysOf, setDiff, sortNat,
      MirrorService.copyCount_eq]

/-- Witness for the amended C4 at the concrete failing environment. -/
theorem spec_c4_enum_failure_behavior_witness :
    MirrorService.get_current_jobs (enumFailEnv.enum "A") = [] ∧
    (MirrorService.run_once enumFailEnv ["A"] "D" true fun _ => [1, 2]).trackers "A" = [] ∧
    MirrorService.copyCount
      (MirrorService.run_once enumFailEnv ["A"] "D" true fun _ => [1, 2]).events "A" 1 = 0 := by
  obtain ⟨h1, h2, h3⟩ :=
    @spec_c4_enum_failure_behavior enumFailEnv ["A"] "D" "A" (fun _ => [1, 2])
      (by decide) (by decide) rfl
  exact ⟨h1, h2, h3 1⟩

/-! ### Claims C2 and C5: behavior across consecutive poll ticks -/

/-- A steady run environment: one job (id 1, untagged) present at seeding
time and on every tick, with a fully working copy environment. -/
def steadyEnv : RunEnv :=
  ⟨true, fun _ => some [⟨1, "Doc", 0⟩],
   fun _ => ⟨fun _ => some [⟨1, "Doc", 0⟩], fun _ _ => ceAllOk⟩⟩

/-- Run environment for the C2 counterexample: the queue is empty at
seeding; job 1 is enumerated at every tick except tick 1, where the
enumeration raises. -/
def retryEnv : RunEnv :=
  ⟨true, fun _ => some [],
   fun t => if t = 1 then enumFailEnv
     else ⟨fun _ => some [⟨1, "Doc", 0⟩], fun _ _ => ceAllOk⟩⟩

/-- Run environment for the C5 counterexample: job 1 predates the run;
the enumeration of tick 0 raises; tick 1 enumerates job 1 again. -/
def seedLossEnv : RunEnv :=
  ⟨true, fun _ => some [⟨1, "Doc", 0⟩],
   fun t => if t = 0 then enumFailEnv
     else ⟨fun _ => some [⟨1, "Doc", 0⟩], fun _ _ => ceAllOk⟩⟩

/-- C2 (amended): while a job stays continuously enumerated on its source,
it ends each tick marked processed, no tick after the first one of the
window attempts to copy it, and any single tick attempts it at most once —
so it is submitted at most once over the window.  (Without enumeration
gaps this is the claimed exactly-once behavior; a failing enumeration tick
clears the tracker and voids the guarantee, see the counterexample.) -/
theorem spec_c2_at_most_once_while_enumerated {renv : RunEnv}
    {printers : List String} {dest p : String} {j t0 T : Nat}
    (hnd : printers.Nodup) (hp : p ∈ printers)
    (hpres : ∀ t, t0 ≤ t → t ≤ T → j ∈ MirrorService.currentIdsAt renv p t) :
    (∀ t, t0 ≤ t → t ≤ T →
      j ∈ MirrorService.trackersAfter renv printers dest (t + 1) p) ∧
    (∀ t, t0 < t → t ≤ T → MirrorService.copyCount
      (MirrorService.tickResult renv printers dest t).events p j = 0) ∧
    MirrorService.copyCount
      (MirrorService.tickResult renv printers dest t0).events p j ≤ 1 := by
  refine ⟨?_, ?_, MirrorService.tick_copyCount_le_one hnd hp t0 j⟩
  · intro t h0 h1
    exact (MirrorService.tick_invariant hnd hp (hpres t h0 h1)).1
  · intro t h0 h1
    obtain ⟨s, rfl⟩ : ∃ s, t = s + 1 := ⟨t - 1, by omega⟩
    have hin : j ∈ MirrorService.trackersAfter renv printers dest (s + 1) p :=
      (MirrorService.tick_invariant hnd hp (hpres s (by omega) (by omega))).1
    exact (MirrorService.tick_invariant hnd hp (hpres (s + 1) (by omega) h1)).2 hin

/-- Witness for the amended C2 on the steady environment over ticks 0–1. -/
theorem spec_c2_at_most_once_while_enumerated_witness :
    1 ∈ MirrorService.trackersAfter steadyEnv ["A"] "D" 1 "A" ∧
    MirrorService.copyCount
      (MirrorService.tickResult steadyEnv ["A"] "D" 1).events "A" 1 = 0 ∧
    MirrorService.copyCount
      (MirrorService.tickResult steadyEnv ["A"] "D" 0).events "A" 1 ≤ 1 := by
  have hpres : ∀ t, 0 ≤ t → t ≤ 1 → 1 ∈ MirrorService.currentIdsAt steadyEnv "A" t := by
    intro t h0 h1
    interval_cases t <;> decide
  obtain ⟨h1, h2, h3⟩ :=
    @spec_c2_at_most_once_while_enumerated steadyEnv ["A"] "D" "A" 1 0 1
      (by decide) (by decide) hpres
  exact ⟨h1 0 (by omega) (by omega), h2 1 (by omega) (by omega), h3⟩

/-- Counterexample to C2 as stated: job 1 stays on the queue throughout
one run; it is copy-submitted at tick 0, the enumeration of tick 1 raises
(clearing the tracker), and tick 2 submits the same job a second time —
so a processed job is retried on a later poll of the same run. -/
theorem spec_c2_counterexample :
    1 ∈ MirrorService.currentIdsAt retryEnv "A" 0 ∧
    1 ∈ MirrorService.currentIdsAt retryEnv "A" 2 ∧
    MirrorService.submitCount
      (MirrorService.tickResult retryEnv ["A"] "D" 0).events "A" 1 = 1 ∧
    MirrorService.submitCount
      (MirrorService.tickResult retryEnv ["A"] "D" 2).events "A" 1 = 1 := by
  decide

/-- C5 (amended): every id enumerated at seeding time is in its source's
tracker before the first tick, and such a pre-existing job is never copied
as long as it stays continuously enumerated — but this holds only while
every enumeration of that source succeeds; a failing tick clears the
tracker and a still-present pre-existing job is then submitted (see the
counterexample). -/
theorem spec_c5_startup_suppression {renv : RunEnv} {printers : List String}
    {dest p : String} {j T : Nat}
    (hnd : printers.Nodup) (hp : p ∈ printers)
    (hseed : j ∈ keysOf (MirrorService.get_current_jobs (renv.seedEnum p)))
    (hpres : ∀ t, t ≤ T → j ∈ MirrorService.currentIdsAt renv p t) :
    j ∈ MirrorService.trackersAfter renv printers dest 0 p ∧
    ∀ t, t ≤ T → MirrorService.copyCount
      (MirrorService.tickResult renv printers dest t).events p j = 0 := by
  have h0 : j ∈ MirrorService.trackersAfter renv printers dest 0 p := by
    show j ∈ MirrorService.seedTrackers renv.seedEnum printers p
    rw [MirrorService.seedTrackers_apply _ _ hp]
    exact hseed
  refine ⟨h0, ?_⟩
  have main : ∀ t, t ≤ T → j ∈ MirrorService.trackersAfter renv printers dest t p := by
    intro t
    induction t with
    | zero => exact fun _ => h0
    | succ s ih =>
      intro hsT
      exact (MirrorService.tick_invariant hnd hp (hpres s (by omega))).1
  intro t ht
  exact (MirrorService.tick_invariant hnd hp (hpres t ht)).2 (main t ht)

/-- Witness for the amended C5 on the steady environment over ticks 0–1. -/
theorem spec_c5_startup_suppression_witness :
    1 ∈ MirrorService.trackersAfter steadyEnv ["A"] "D" 0 "A" ∧
    MirrorService.copyCount
      (MirrorService.tickResult steadyEnv ["A"] "D" 0).events "A" 1 = 0 ∧
    MirrorService.copyCount
      (MirrorService.tickResult steadyEnv ["A"] "D" 1).events "A" 1 = 0 := by
  have hpres : ∀ t, t ≤ 1 → 1 ∈ MirrorService.currentIdsAt steadyEnv "A" t := by
    intro t h1
    interval_cases t <;> decide
  obtain ⟨h0, hall⟩ :=
    @spec_c5_startup_suppression steadyEnv ["A"] "D" "A" 1 1
      (by decide) (by decide) (by decide) hpres
  exact ⟨h0, hall 0 (by omega), hall 1 (by omega)⟩

/-- Counterexample to C5 as stated: job 1 is present when the engine
enters its running state and is duly seeded, yet after the tick-0
enumeration failure clears the tracker, tick 1 submits this pre-existing
job to the destination. -/
theorem spec_c5_counterexample :
    1 ∈ keysOf (MirrorService.get_current_jobs (seedLossEnv.seedEnum "A")) ∧
    1 ∈ MirrorService.trackersAfter seedLossEnv ["A"] "D" 0 "A" ∧
    MirrorService.submitCount
      (MirrorService.tickResult seedLossEnv ["A"] "D" 1).events "A" 1 = 1 := by
  decide

/-! ### Claim C10: the two engine copies are behaviorally equivalent -/

theorem app_insertByMtime_eq (f : SpoolFile) (l : List SpoolFile) :
    MirrorApp.find_spool_file.insertByMtime f l =
      MirrorService.find_spool_file.insertByMtime f l := by
  induction l with
  | nil => rfl
  | cons g rest ih =>
    rw [MirrorApp.find_spool_file.insertByMtime,
      MirrorService.find_spool_file.insertByMtime, ih]

theorem app_mtimeSortDesc_eq (l : List SpoolFile) :
    MirrorApp.find_spool_file.mtimeSortDesc l =
      MirrorService.find_spool_file.mtimeSortDesc l := by
  induction l with
  | nil => rfl
  | cons f rest ih =>
    rw [MirrorApp.find_spool_file.mtimeSortDesc,
      MirrorService.find_spool_file.mtimeSortDesc, ih, app_insertByMtime_eq]

theorem app_find_eq (fs : SpoolFS) (jobId : Nat) :
    MirrorApp.find_spool_file fs jobId = MirrorService.find_spool_file fs jobId := by
  unfold MirrorApp.find_spool_file MirrorService.find_spool_file
  simp only [app_mtimeSortDesc_eq]

theorem app_read_go_eq (fs : Nat → SpoolFS) (jobId retries : Nat) (l : List Nat) :
    MirrorApp.read_spool_go fs jobId retries l =
      MirrorService.read_spool_go fs jobId retries l := by
  induction l with
  | nil => rfl
  | cons a rest ih =>
    rw [MirrorApp.read_spool_go, MirrorService.read_spool_go, app_find_eq, ih]

theorem app_read_full_eq (fs : Nat → SpoolFS) (jobId retries : Nat) :
    MirrorApp.read_spool_full fs jobId retries =
      MirrorService.read_spool_full fs jobId retries := by
  unfold MirrorApp.read_spool_full MirrorService.read_spool_full
  rw [app_read_go_eq]

theorem app_read_data_eq (fs : Nat → SpoolFS) (jobId retries : Nat) :
    MirrorApp.read_spool_data fs jobId retries =
      MirrorService.read_spool_data fs jobId retries := by
  unfold MirrorApp.read_spool_data MirrorService.read_spool_data
  rw [app_read_full_eq]

theorem app_get_current_jobs_eq (er : Option (List RawJob)) :
    MirrorApp.get_current_jobs er = MirrorService.get_current_jobs er := by
  cases er <;> rfl

theorem app_copy_ok_calls_eq (ce : CopyEnv) (dest source : String) (jobId : Nat)
    (document : String) :
    (MirrorApp.copy_job ce dest source jobId document).ok =
      (MirrorService.copy_job ce dest source jobId document).ok ∧
    (MirrorApp.copy_job ce dest source jobId document).calls =
      (MirrorService.copy_job ce dest source jobId document).calls := by
  unfold MirrorApp.copy_job MirrorService.copy_job
  rw [app_read_data_eq]
  cases MirrorService.read_spool_data ce.fs jobId 5 with
  | none => exact ⟨rfl, rfl⟩
  | some data =>
    cases ho : ce.w32.openOk <;> cases hsd : ce.w32.startDocOk <;>
      cases hsp : ce.w32.startPageOk <;> cases hwr : ce.w32.writeOk <;>
        cases hep : ce.w32.endPageOk <;> cases hed : ce.w32.endDocOk <;>
          cases hcl : ce.w32.closeOk <;>
            simp [ho, hsd, hsp, hwr, hep, hed, hcl]

theorem app_jobStep_rel (ce : Nat → CopyEnv) (dest printer : String)
    (current : List (Nat × JobInfo)) (accA : MirrorApp.StepAcc)
    (accS : MirrorService.StepAcc) (j : Nat)
    (htr : accA.tracker = accS.tracker)
    (hev : accA.events.map MirrorApp.Event.core =
      accS.events.map MirrorService.Event.core) :
    (MirrorApp.jobStep ce dest printer current accA j).tracker =
      (MirrorService.jobStep ce dest printer current accS j).tracker ∧
    (MirrorApp.jobStep ce dest printer current accA j).events.map MirrorApp.Event.core =
      (MirrorService.jobStep ce dest printer current accS j).events.map
        MirrorService.Event.core := by
  unfold MirrorApp.jobStep MirrorService.jobStep
  dsimp only
  by_cases hcond :
      strStartsWith ((List.lookup j current).getD default).document "[MIRROR" = true
  · rw [if_pos hcond, if_pos hcond]
    refine ⟨?_, ?_⟩
    · dsimp only
      rw [htr]
    · dsimp only
      rw [List.map_append, List.map_append, hev]
      rfl
  · rw [if_neg hcond, if_neg hcond]
    refine ⟨?_, ?_⟩
    · dsimp only
      rw [htr]
    · dsimp only
      rw [List.map_append, List.map_append, hev]
      obtain ⟨hok, hcalls⟩ := app_copy_ok_calls_eq (ce j) dest printer j
        ((List.lookup j current).getD default).document
      simp [MirrorApp.Event.core, MirrorService.Event.core, hok, hcalls]

theorem app_foldl_jobStep_rel (ce : Nat → CopyEnv) (dest printer : String)
    (current : List (Nat × JobInfo)) (l : List Nat) (accA : MirrorApp.StepAcc)
    (accS : MirrorService.StepAcc) (htr : accA.tracker = accS.tracker)
    (hev : accA.events.map MirrorApp.Event.core =
      accS.events.map MirrorService.Event.core) :
    (l.foldl (MirrorApp.jobStep ce dest printer current) accA).tracker =
      (l.foldl (MirrorService.jobStep ce dest printer current) accS).tracker ∧
    (l.foldl (MirrorApp.jobStep ce dest printer current) accA).events.map
        MirrorApp.Event.core =
      (l.foldl (MirrorService.jobStep ce dest printer current) accS).events.map
        MirrorService.Event.core := by
  induction l generalizing accA accS with
  | nil => exact ⟨htr, hev⟩
  | cons a rest ih =>
    rw [List.foldl_cons, List.foldl_cons]
    obtain ⟨htr', hev'⟩ := app_jobStep_rel ce dest printer current accA accS a htr hev
    exact ih _ _ htr' hev'

theorem app_processPrinter_eq (er : Option (List RawJob)) (ce : Nat → CopyEnv)
    (dest printer : String) (tr : List Nat) :
    (MirrorApp.processPrinter er ce dest printer tr).tracker =
      (MirrorService.processPrinter er ce dest printer tr).tracker ∧
    (MirrorApp.processPrinter er ce dest printer tr).events.map MirrorApp.Event.core =
      (MirrorService.processPrinter er ce dest printer tr).events.map
        MirrorService.Event.core := by
  unfold MirrorApp.processPrinter MirrorService.processPrinter
  rw [app_get_current_jobs_eq]
  dsimp only
  obtain ⟨htr, hev⟩ := app_foldl_jobStep_rel ce dest printer
    (MirrorService.get_current_jobs er)
    (sortNat (setDiff (keysOf (MirrorService.get_current_jobs er)) tr))
    ⟨tr, [], []⟩ ⟨tr, 0, [], []⟩ rfl rfl
  exact ⟨by rw [htr], hev⟩

theorem app_cycleGo_rel (env : Env) (dest : String) (l : List String)
    (accA : MirrorApp.CycleResult) (accS : MirrorService.CycleResult)
    (htr : accA.trackers = accS.trackers)
    (hev : accA.events.map MirrorApp.Event.core =
      accS.events.map MirrorService.Event.core) :
    (MirrorApp.cycleGo env dest l accA).trackers =
      (MirrorService.cycleGo env dest l accS).trackers ∧
    (MirrorApp.cycleGo env dest l accA).events.map MirrorApp.Event.core =
      (MirrorService.cycleGo env dest l accS).events.map MirrorService.Event.core := by
  induction l generalizing accA accS with
  | nil => exact ⟨htr, hev⟩
  | cons p rest ih =>
    rw [MirrorApp.cycleGo, MirrorService.cycleGo]
    apply ih
    · rw [htr, (app_processPrinter_eq (env.enum p) (env.copyEnv p) dest p
        (accS.trackers p)).1]
    · rw [List.map_append, List.map_append, hev, htr,
        (app_processPrinter_eq (env.enum p) (env.copyEnv p) dest p
          (accS.trackers p)).2]

/-- C10: for identical environments the two engine copies agree: same
spool-file locator, same retrying reader (bytes, sleep time and attempt
count), same `_copy_job` decision and printer-API call trace, and the same
tracker updates and per-job outcomes for one printer's share of a cycle
and for one full poll cycle. -/
theorem spec_c10_engines_equivalent :
    (∀ fs jobId, MirrorApp.find_spool_file fs jobId =
      MirrorService.find_spool_file fs jobId) ∧
    (∀ fs jobId retries, MirrorApp.read_spool_full fs jobId retries =
      MirrorService.read_spool_full fs jobId retries) ∧
    (∀ ce dest source jobId document,
      (MirrorApp.copy_job ce dest source jobId document).ok =
        (MirrorService.copy_job ce dest source jobId document).ok ∧
      (MirrorApp.copy_job ce dest source jobId document).calls =
        (MirrorService.copy_job ce dest source jobId document).calls) ∧
    (∀ er ce dest printer tr,
      (MirrorApp.processPrinter er ce dest printer tr).tracker =
        (MirrorService.processPrinter er ce dest printer tr).tracker ∧
      (MirrorApp.processPrinter er ce dest printer tr).events.map
          MirrorApp.Event.core =
        (MirrorService.processPrinter er ce dest printer tr).events.map
          MirrorService.Event.core) ∧
    (∀ env printers dest trackers,
      (MirrorApp.pollCycle env printers dest trackers).trackers =
        (MirrorService.run_once env printers dest true trackers).trackers ∧
      (MirrorApp.pollCycle env printers dest trackers).events.map
          MirrorApp.Event.core =
        (MirrorService.run_once env printers dest true trackers).events.map
          MirrorService.Event.core) := by
  refine ⟨app_find_eq, app_read_full_eq, app_copy_ok_calls_eq,
    app_processPrinter_eq, ?_⟩
  intro env printers dest trackers
  unfold MirrorApp.pollCycle MirrorService.run_once
  rw [if_pos rfl]
  exact app_cycleGo_rel env dest printers ⟨trackers, [], []⟩ ⟨trackers, 0, [], []⟩
    rfl rfl
